import Mathlib

/-!
Verification development for `netscan.py`, a host-liveness discovery and
service-probing utility.  The pure logic of the script (CIDR parsing via
CPython `ipaddress.ip_network(strict=False)`, the usable-host iterator,
the first-3-responders sampling loop, the HTTPS status-line parser, and the
catch-all error normalisation of the probe functions) is shallowly embedded
here; network effects are represented by explicit outcome values and event
traces supplied through oracles.
-/

namespace Netscan

/-! ### Python `str`/`int` primitives, embedded over `List Char` -/

/-- Whitespace characters recognised by Python `str.split()` with no
separator argument (`str.isspace`). -/
def pyIsSpace (c : Char) : Bool :=
  let n := c.toNat
  (0x9 ≤ n && n ≤ 0xd) || n == 0x20 || (0x1c ≤ n && n ≤ 0x1f) ||
  n == 0x85 || n == 0xa0 || n == 0x1680 || (0x2000 ≤ n && n ≤ 0x200a) ||
  n == 0x2028 || n == 0x2029 || n == 0x202f || n == 0x205f || n == 0x3000

/-- `s.split(sep)` for a one-character separator: pieces between occurrences
of `sep`, empty pieces kept (CPython semantics: `"".split('.') == ['']`). -/
def splitOnChar (sep : Char) : List Char → List (List Char)
  | [] => [[]]
  | c :: rest =>
    let r := splitOnChar sep rest
    if c = sep then [] :: r
    else
      match r with
      | t :: ts => (c :: t) :: ts
      | [] => [[c]]

/-- Helper for `splitWS`: accumulates the current token (reversed). -/
def splitWSAux : List Char → List Char → List (List Char)
  | tok, [] => if tok.isEmpty then [] else [tok.reverse]
  | tok, c :: rest =>
    if pyIsSpace c then
      if tok.isEmpty then splitWSAux [] rest
      else tok.reverse :: splitWSAux [] rest
    else splitWSAux (c :: tok) rest

/-- Python `str.split()` with no argument: split on runs of whitespace,
discarding empty tokens. -/
def splitWS (cs : List Char) : List (List Char) := splitWSAux [] cs

/-- `pre` is a leading run of `t` (Python `str.startswith`). -/
def startsWith : List Char → List Char → Bool
  | [], _ => true
  | _ :: _, [] => false
  | p :: ps, c :: cs => p == c && startsWith ps cs

/-- Decimal value of a digit run (callers ensure all characters are ASCII
digits). -/
def digitsToNat (cs : List Char) : Nat :=
  cs.foldl (fun a c => a * 10 + (c.toNat - 48)) 0

/-- Digit run of Python `int()`: digits with single underscores permitted
between digits (`digit (["_"] digit)*`). `acc` is the value so far. -/
def digRun (acc : Nat) : List Char → Option Nat
  | [] => some acc
  | '_' :: rest =>
    match rest with
    | c :: rest2 =>
      if c.isDigit then digRun (acc * 10 + (c.toNat - 48)) rest2 else none
    | [] => none
  | c :: rest =>
    if c.isDigit then digRun (acc * 10 + (c.toNat - 48)) rest else none

/-- Start of the digit part of Python `int()`: must open with a digit. -/
def digStart : List Char → Option Nat
  | [] => none
  | c :: rest => if c.isDigit then digRun (c.toNat - 48) rest else none

/-- Strip leading and trailing Python whitespace. -/
def pyStrip (cs : List Char) : List Char :=
  ((cs.dropWhile pyIsSpace).reverse.dropWhile pyIsSpace).reverse

/-- Python `int(s)`: optional surrounding whitespace, optional sign, then an
underscore-grouped ASCII digit run; `none` models the `ValueError` raised on
any other input.  (CPython additionally accepts non-ASCII decimal digits,
which never occur in the protocol strings treated here.) -/
def pyInt? (s : List Char) : Option Int :=
  match pyStrip s with
  | '+' :: rest => (digStart rest).map Int.ofNat
  | '-' :: rest => (digStart rest).map (fun n => -(n : Int))
  | cs => (digStart cs).map Int.ofNat

/-! ### CPython `ipaddress` IPv4 parsing (`ip_network(cidr, strict=False)`)

The spec scopes the system to IPv4 ranges (§1); `ip_network`'s IPv6 fallback
branch is not modelled — every range string appearing in the spec and the
claims is in IPv4 dotted/CIDR form, and a string without a colon cannot
parse as IPv6 either. -/

/-- `_parse_octet`: non-empty, ASCII digits only, at most 3 characters, no
leading zero (except `"0"` itself), value at most 255. -/
def parse_octet (cs : List Char) : Option Nat :=
  if cs.isEmpty then none
  else if !(cs.all Char.isDigit) then none
  else if cs.length > 3 then none
  else if cs ≠ ['0'] && cs.head? == some '0' then none
  else
    let n := digitsToNat cs
    if n > 255 then none else some n

/-- `_ip_int_from_string`: exactly four `.`-separated octets, big-endian. -/
def ip_int_from_string (cs : List Char) : Option Nat :=
  if cs.isEmpty then none
  else
    match (splitOnChar '.' cs).mapM parse_octet with
    | some [a, b, c, d] => some (((a * 256 + b) * 256 + c) * 256 + d)
    | _ => none

/-- `_prefix_from_prefix_string`: ASCII digits only (no sign, no
whitespace), value at most 32. -/
def prefix_from_prefix_string (cs : List Char) : Option Nat :=
  if cs.isEmpty || !(cs.all Char.isDigit) then none
  else
    let n := digitsToNat cs
    if n ≤ 32 then some n else none

/-- Count of trailing zero bits of `ip`, up to `fuel` bits
(`_count_righthand_zero_bits`). -/
def countRightZeros (ip : Nat) : Nat → Nat
  | 0 => 0
  | fuel + 1 =>
    if ip % 2 = 1 then 0 else 1 + countRightZeros (ip / 2) fuel

/-- `_prefix_from_ip_int`: accept `ip` only if it is a contiguous netmask
(ones then zeros), returning its prefix length. -/
def prefix_from_ip_int (ip : Nat) : Option Nat :=
  let tz := countRightZeros ip 32
  let p := 32 - tz
  if ip >>> tz = 2 ^ p - 1 then some p else none

/-- `_prefix_from_ip_string`: a dotted-quad netmask, or a hostmask (its
bitwise complement is a netmask). -/
def prefix_from_ip_string (cs : List Char) : Option Nat :=
  match ip_int_from_string cs with
  | none => none
  | some ip =>
    match prefix_from_ip_int ip with
    | some p => some p
    | none => prefix_from_ip_int (ip ^^^ (2 ^ 32 - 1))

/-- `_make_netmask` on the string after `/`: prefix-length digits, else a
dotted netmask/hostmask. -/
def make_netmask (cs : List Char) : Option Nat :=
  match prefix_from_prefix_string cs with
  | some p => some p
  | none => prefix_from_ip_string cs

/-- `_split_addr_prefix` + address/netmask parsing: returns the raw
`(address integer, prefix length)` before any host-bit masking.  At most one
`/` is permitted; a missing mask means `/32`. -/
def parseSpec (s : String) : Option (Nat × Nat) :=
  match splitOnChar '/' s.data with
  | [a] => (ip_int_from_string a).map (fun ip => (ip, 32))
  | [a, m] =>
    match ip_int_from_string a, make_netmask m with
    | some ip, some p => some (ip, p)
    | _, _ => none
  | _ => none

/-- An IPv4 network: network address (as an integer) and prefix length. -/
structure IPv4Net where
  netAddr : Nat
  prefixlen : Nat
deriving DecidableEq

/-- `IPv4Network((ip, p), strict=False)`: host bits below the prefix are
masked away rather than rejected. -/
def mkNetwork (ip p : Nat) : IPv4Net :=
  ⟨ip / 2 ^ (32 - p) * 2 ^ (32 - p), p⟩

/-- `ipaddress.ip_network(s, strict=False)` for IPv4. -/
def ip_network? (s : String) : Option IPv4Net :=
  (parseSpec s).map (fun q => mkNetwork q.1 q.2)

/-- Broadcast address of a network, as an integer. -/
def broadcastInt (n : IPv4Net) : Nat :=
  n.netAddr + (2 ^ (32 - n.prefixlen) - 1)

/-- `network.hosts()` as a list: `range(network+1, broadcast)` in general;
a `/31` yields both addresses (`__iter__`), a `/32` the single address. -/
def hostsList (n : IPv4Net) : List Nat :=
  if n.prefixlen = 32 then [n.netAddr]
  else if n.prefixlen = 31 then [n.netAddr, n.netAddr + 1]
  else List.range' (n.netAddr + 1) (2 ^ (32 - n.prefixlen) - 2)

/-- The candidate sequence actually probed by `scan_subnet`: `hosts()` with
its first element unconditionally skipped (`if idx == 0: continue`). -/
def candidates (n : IPv4Net) : List Nat := (hostsList n).drop 1

/-! ### `ping_host` -/

/-- `ping_host`: the single `subprocess.run(["ping", "-c", "1", "-W",
"200", ip])` call either completes with a return code (`some rc`) or raises
(`none`, e.g. the ping tool is unavailable or not executable).  The result
is `returncode == 0`; the `except` arm converts any raised error to
`False`.  The second component counts the probe (subprocess) invocations
the call performs: the body contains exactly one. -/
def ping_host (runOutcome : Option Int) : Bool × Nat :=
  match runOutcome with
  | some rc => (rc == 0, 1)
  | none => (false, 1)

/-! ### `check_tcp` -/

/-- Outcome of `socket.create_connection((ip, port), timeout)`. -/
inductive TcpOutcome
  | established
  | refused
  | timedOut
  | unreachable
deriving DecidableEq

/-- Observable socket actions of a probe. -/
inductive SockEvent
  | connect
  | close
  | send
  | recv
deriving DecidableEq

/-- `check_tcp`: `True` when the connection is established; the `with`
block closes it immediately (no data is sent or received); every exception
is caught and yields `False`.  The second component is the trace of socket
events on the established connection. -/
def check_tcp (o : TcpOutcome) : Bool × List SockEvent :=
  match o with
  | .established => (true, [.connect, .close])
  | _ => (false, [])

/-! ### `check_https_status` -/

/-- Buffer check `b"\r\n" in data` over byte values. -/
def hasCRLF : List Nat → Bool
  | [] => false
  | 13 :: 10 :: _ => true
  | _ :: rest => hasCRLF rest

/-- `data.split(b"\r\n", 1)[0]`: bytes before the first CRLF (the whole
buffer when no CRLF occurs). -/
def takeUntilCRLF : List Nat → List Nat
  | [] => []
  | 13 :: 10 :: _ => []
  | b :: rest => b :: takeUntilCRLF rest

/-- Valid UTF-8 continuation byte. -/
def isCont (b : Nat) : Bool := 0x80 ≤ b && b ≤ 0xbf

/-- Valid second byte after a three-byte lead (RFC 3629 ranges, rejecting
overlong forms and surrogates, as CPython's decoder does). -/
def cont3ok (b0 b1 : Nat) : Bool :=
  if b0 = 0xe0 then 0xa0 ≤ b1 && b1 ≤ 0xbf
  else if b0 = 0xed then 0x80 ≤ b1 && b1 ≤ 0x9f
  else isCont b1

/-- Valid second byte after a four-byte lead. -/
def cont4ok (b0 b1 : Nat) : Bool :=
  if b0 = 0xf0 then 0x90 ≤ b1 && b1 ≤ 0xbf
  else if b0 = 0xf4 then 0x80 ≤ b1 && b1 ≤ 0x8f
  else isCont b1

/-- Fuelled worker for `utf8DecodeIgnore`; every step consumes at least one
byte, so fuel equal to the byte count suffices. -/
def utf8DecodeIgnoreF : Nat → List Nat → List Char
  | 0, _ => []
  | _, [] => []
  | fuel + 1, b0 :: tl =>
    if b0 < 0x80 then Char.ofNat b0 :: utf8DecodeIgnoreF fuel tl
    else if 0xc2 ≤ b0 && b0 ≤ 0xdf then
      match tl with
      | [] => []
      | b1 :: tl1 =>
        if isCont b1 then
          Char.ofNat ((b0 - 0xc0) * 64 + (b1 - 0x80)) ::
            utf8DecodeIgnoreF fuel tl1
        else utf8DecodeIgnoreF fuel tl
    else if 0xe0 ≤ b0 && b0 ≤ 0xef then
      match tl with
      | [] => []
      | b1 :: tl1 =>
        if cont3ok b0 b1 then
          match tl1 with
          | [] => []
          | b2 :: tl2 =>
            if isCont b2 then
              Char.ofNat (((b0 - 0xe0) * 64 + (b1 - 0x80)) * 64 +
                (b2 - 0x80)) :: utf8DecodeIgnoreF fuel tl2
            else utf8DecodeIgnoreF fuel tl1
        else utf8DecodeIgnoreF fuel tl
    else if 0xf0 ≤ b0 && b0 ≤ 0xf4 then
      match tl with
      | [] => []
      | b1 :: tl1 =>
        if cont4ok b0 b1 then
          match tl1 with
          | [] => []
          | b2 :: tl2 =>
            if isCont b2 then
              match tl2 with
              | [] => []
              | b3 :: tl3 =>
                if isCont b3 then
                  Char.ofNat ((((b0 - 0xf0) * 64 + (b1 - 0x80)) * 64 +
                    (b2 - 0x80)) * 64 + (b3 - 0x80)) ::
                    utf8DecodeIgnoreF fuel tl3
                else utf8DecodeIgnoreF fuel tl2
            else utf8DecodeIgnoreF fuel tl1
        else utf8DecodeIgnoreF fuel tl
    else utf8DecodeIgnoreF fuel tl

/-- `bytes.decode(errors="ignore")` (UTF-8): valid sequences decode to
their scalar, invalid or truncated bytes are dropped. -/
def utf8DecodeIgnore (l : List Nat) : List Char :=
  utf8DecodeIgnoreF l.length l

/-- Outcome of the connect / TLS-handshake / send phase plus the sequence of
`recv(1024)` results of one HTTPS probe.  `failConnect` models an exception
anywhere before the receive loop.  In a `session`, `chunks` lists the
successive `recv` results; an empty chunk models the peer closing the
connection; exhausting `chunks` while the loop still wants data models
`recv` raising (e.g. a timeout). -/
inductive ConnOutcome
  | failConnect
  | session (chunks : List (List Nat))
deriving DecidableEq

/-- The `while b"\r\n" not in data` accumulation loop.  `none` models an
exception raised by `recv`. -/
def accumRecv : List (List Nat) → List Nat → Option (List Nat)
  | chunks, data =>
    if hasCRLF data then some data
    else
      match chunks with
      | [] => none
      | c :: rest => if c.isEmpty then some data else accumRecv rest (data ++ c)

/-- The literal prefix `"HTTP/"`. -/
def httpSlash : List Char := ['H', 'T', 'T', 'P', '/']

/-- Whitespace-separated tokens of the (permissively decoded) first
response line. -/
def firstLineTokens (data : List Nat) : List (List Char) :=
  splitWS (utf8DecodeIgnore (takeUntilCRLF data))

/-- Body of `check_https_status`'s `try` block: `some v` is a normal
`return v`, `none` a raised exception. -/
def check_https_body (o : ConnOutcome) : Option (Option Int) :=
  match o with
  | .failConnect => none
  | .session chunks =>
    match accumRecv chunks [] with
    | none => none
    | some data =>
      if data.isEmpty then some none
      else
        match firstLineTokens data with
        | t0 :: t1 :: _ =>
          if startsWith httpSlash t0 then
            match pyInt? t1 with
            | some v => some (some v)
            | none => none
          else some none
        | _ => some none

/-- `check_https_status`: the `except` arm converts every raised exception
to `None`. -/
def check_https_status (o : ConnOutcome) : Option Int :=
  match check_https_body o with
  | some v => v
  | none => none

/-! ### `scan_subnet` and `main`'s range loop -/

/-- The environment a scan runs against: outcome of the single ping
subprocess per address, of the HTTPS session per address, and of a TCP
connect per (address, port). -/
structure NetworkEnv where
  pingRun : Nat → Option Int
  conn : Nat → ConnOutcome
  tcp : Nat → Nat → TcpOutcome

/-- Boolean liveness signal for one address. -/
def pingOf (env : NetworkEnv) (ip : Nat) : Bool :=
  (ping_host (env.pingRun ip)).1

/-- `max_hosts = 3`. -/
def max_hosts : Nat := 3

/-- The sampling loop of `scan_subnet`: ping each candidate in order,
append responders, break as soon as `len(responsive_hosts) >= max_hosts`.
Returns (responders, addresses probed in order). -/
def sampleLoop (ping : Nat → Bool) : List Nat → List Nat → List Nat →
    List Nat × List Nat
  | [], resp, probed => (resp, probed)
  | ip :: rest, resp, probed =>
    if ping ip then
      if max_hosts ≤ (resp ++ [ip]).length then (resp ++ [ip], probed ++ [ip])
      else sampleLoop ping rest (resp ++ [ip]) (probed ++ [ip])
    else sampleLoop ping rest resp (probed ++ [ip])

/-- Responder sampling over a candidate list. -/
def sampleResponders (ping : Nat → Bool) (cands : List Nat) :
    List Nat × List Nat :=
  sampleLoop ping cands [] []

/-- One host's service outcomes, as printed by `scan_subnet`. -/
structure HostReport where
  addr : Nat
  https : Option Int
  rdp : Bool
  smb : Bool
  ssh : Bool
deriving DecidableEq

/-- All four service checks for one responder; each field is computed
unconditionally from its own probe. -/
def serviceReport (env : NetworkEnv) (ip : Nat) : HostReport :=
  { addr := ip
    https := check_https_status (env.conn ip)
    rdp := (check_tcp (env.tcp ip 3389)).1
    smb := (check_tcp (env.tcp ip 445)).1
    ssh := (check_tcp (env.tcp ip 22)).1 }

/-- Result of one `scan_subnet` call. -/
inductive ScanOutcome
  | invalid
  | noHosts
  | reports (rs : List HostReport)
deriving DecidableEq

/-- One `scan_subnet` call together with its probe traces: the addresses
liveness-probed and the addresses service-probed, each in order. -/
structure ScanTrace where
  outcome : ScanOutcome
  pinged : List Nat
  serviced : List Nat
deriving DecidableEq

/-- `scan_subnet(cidr)`: parse with `ip_network(cidr, strict=False)`
(reporting and returning on `ValueError`), sample up to 3 responders from
`hosts()` minus its first element, then either report "no hosts responded"
or produce one report per responder in discovery order. -/
def scan_subnet (env : NetworkEnv) (cidr : String) : ScanTrace :=
  match ip_network? cidr with
  | none => ⟨.invalid, [], []⟩
  | some net =>
    let rp := sampleResponders (pingOf env) (candidates net)
    if rp.1.isEmpty then ⟨.noHosts, rp.2, []⟩
    else ⟨.reports (rp.1.map (serviceReport env)), rp.2, rp.1⟩

/-- `main`'s file mode: `for subnet in subnets: scan_subnet(subnet)` — each
specification is scanned unconditionally, regardless of earlier failures. -/
def scanAll (env : NetworkEnv) (specs : List String) : List ScanTrace :=
  specs.map (scan_subnet env)

/-- A concrete environment in which every probe fails: ping exits 1, every
TLS connection fails, every TCP connect is refused. -/
def envDead : NetworkEnv :=
  ⟨fun _ => some 1, fun _ => .failConnect, fun _ _ => .refused⟩

/-- A concrete environment in which every ping succeeds (exit 0) while all
service probes fail. -/
def envAlive : NetworkEnv :=
  ⟨fun _ => some 0, fun _ => .failConnect, fun _ _ => .refused⟩

/-- Prefix of `l` up to and including its `n`-th element satisfying `ping`
(the whole of `l` when fewer than `n` satisfy it); the portion of the
candidate list the sampling loop consumes. -/
def takeToNth (ping : Nat → Bool) : Nat → List Nat → List Nat
  | _, [] => []
  | n, x :: xs =>
    if ping x then
      if n ≤ 1 then [x] else x :: takeToNth ping (n - 1) xs
    else x :: takeToNth ping n xs

/-! ## Theorems -/

/-- Unfolding: a satisfying head with bound reached. -/
theorem takeToNth_pos_one {ping : Nat → Bool} {x : Nat} {xs : List Nat}
    {n : Nat} (hp : ping x = true) (h1 : n ≤ 1) :
    takeToNth ping n (x :: xs) = [x] := by
  rw [takeToNth, if_pos hp, if_pos h1]

/-- Unfolding: a satisfying head with bound not yet reached. -/
theorem takeToNth_pos_more {ping : Nat → Bool} {x : Nat} {xs : List Nat}
    {n : Nat} (hp : ping x = true) (h1 : ¬n ≤ 1) :
    takeToNth ping n (x :: xs) = x :: takeToNth ping (n - 1) xs := by
  rw [takeToNth, if_pos hp, if_neg h1]

/-- Unfolding: a non-satisfying head. -/
theorem takeToNth_neg {ping : Nat → Bool} {x : Nat} {xs : List Nat}
    {n : Nat} (hp : ping x = false) :
    takeToNth ping n (x :: xs) = x :: takeToNth ping n xs := by
  rw [takeToNth, if_neg (by simp [hp])]

/-- `takeToNth` is a prefix of its input. -/
theorem takeToNth_isPre (ping : Nat → Bool) :
    ∀ (n : Nat) (l : List Nat), ∃ rest, l = takeToNth ping n l ++ rest := by
  intro n l
  induction l generalizing n with
  | nil => exact ⟨[], rfl⟩
  | cons x xs ih =>
    rcases Bool.eq_false_or_eq_true (ping x) with hp | hp
    · by_cases hn : n ≤ 1
      · exact ⟨xs, by rw [takeToNth_pos_one hp hn, List.singleton_append]⟩
      · obtain ⟨rest, hr⟩ := ih (n - 1)
        exact ⟨rest, by rw [takeToNth_pos_more hp hn, List.cons_append, ← hr]⟩
    · obtain ⟨rest, hr⟩ := ih n
      exact ⟨rest, by rw [takeToNth_neg hp, List.cons_append, ← hr]⟩

/-- `takeToNth` collects at most `n` satisfying elements. -/
theorem takeToNth_filter_le (ping : Nat → Bool) :
    ∀ (n : Nat) (l : List Nat), 1 ≤ n →
      ((takeToNth ping n l).filter ping).length ≤ n := by
  intro n l
  induction l generalizing n with
  | nil => intro _; simp [takeToNth]
  | cons x xs ih =>
    intro hn
    rcases Bool.eq_false_or_eq_true (ping x) with hp | hp
    · by_cases h1 : n ≤ 1
      · rw [takeToNth_pos_one hp h1, List.filter_cons_of_pos hp,
          List.filter_nil]
        simpa using hn
      · have := ih (n - 1) (by omega)
        rw [takeToNth_pos_more hp h1, List.filter_cons_of_pos hp,
          List.length_cons]
        omega
    · have := ih n hn
      rw [takeToNth_neg hp, List.filter_cons_of_neg (by simp [hp])]
      omega

/-- When `takeToNth` collects fewer than `n` satisfying elements it has
consumed the whole list. -/
theorem takeToNth_short (ping : Nat → Bool) :
    ∀ (n : Nat) (l : List Nat),
      ((takeToNth ping n l).filter ping).length < n → takeToNth ping n l = l := by
  intro n l
  induction l generalizing n with
  | nil => intro _; rfl
  | cons x xs ih =>
    intro hlt
    rcases Bool.eq_false_or_eq_true (ping x) with hp | hp
    · by_cases h1 : n ≤ 1
      · exfalso
        rw [takeToNth_pos_one hp h1, List.filter_cons_of_pos hp,
          List.filter_nil] at hlt
        simp at hlt
        omega
      · rw [takeToNth_pos_more hp h1, List.filter_cons_of_pos hp,
          List.length_cons] at hlt
        rw [takeToNth_pos_more hp h1, ih (n - 1) (by omega)]
    · rw [takeToNth_neg hp, List.filter_cons_of_neg (by simp [hp])] at hlt
      rw [takeToNth_neg hp, ih n hlt]

/-- When `takeToNth` collects exactly `n ≥ 1` satisfying elements, its last
element is the `n`-th of them: nothing is consumed past that element. -/
theorem takeToNth_last (ping : Nat → Bool) :
    ∀ (n : Nat) (l : List Nat), 1 ≤ n →
      ((takeToNth ping n l).filter ping).length = n →
      ∃ e x, takeToNth ping n l = e ++ [x] ∧ ping x = true ∧
        (e.filter ping).length = n - 1 := by
  intro n l
  induction l generalizing n with
  | nil => intro hn h; simp [takeToNth] at h; omega
  | cons x xs ih =>
    intro hn h
    rcases Bool.eq_false_or_eq_true (ping x) with hp | hp
    · by_cases h1 : n ≤ 1
      · refine ⟨[], x, takeToNth_pos_one hp h1, hp, ?_⟩
        simp
        omega
      · rw [takeToNth_pos_more hp h1, List.filter_cons_of_pos hp,
          List.length_cons] at h
        obtain ⟨e, y, he, hy, hlen⟩ := ih (n - 1) (by omega) (by omega)
        refine ⟨x :: e, y, ?_, hy, ?_⟩
        · rw [takeToNth_pos_more hp h1, he, List.cons_append]
        · rw [List.filter_cons_of_pos hp, List.length_cons]
          omega
    · rw [takeToNth_neg hp, List.filter_cons_of_neg (by simp [hp])] at h
      obtain ⟨e, y, he, hy, hlen⟩ := ih n hn h
      refine ⟨x :: e, y, ?_, hy, ?_⟩
      · rw [takeToNth_neg hp, he, List.cons_append]
      · rw [List.filter_cons_of_neg (by simp [hp])]
        omega

/-- The sampling loop consumes exactly `takeToNth ping (max_hosts - |resp|)`
of the remaining candidates, appending its satisfying elements to the
responder accumulator and all of it to the probed accumulator. -/
theorem sampleLoop_eq (ping : Nat → Bool) :
    ∀ (cands resp probed : List Nat), resp.length < max_hosts →
      sampleLoop ping cands resp probed
        = (resp ++ (takeToNth ping (max_hosts - resp.length) cands).filter ping,
           probed ++ takeToNth ping (max_hosts - resp.length) cands) := by
  intro cands
  induction cands with
  | nil => intro resp probed _; simp [sampleLoop, takeToNth]
  | cons x xs ih =>
    intro resp probed h
    rcases Bool.eq_false_or_eq_true (ping x) with hp | hp
    · by_cases h3 : max_hosts ≤ (resp ++ [x]).length
      · have hn : max_hosts - resp.length = 1 := by
          simp only [List.length_append, List.length_cons, List.length_nil] at h3
          omega
        rw [sampleLoop, if_pos hp, if_pos h3, hn,
          takeToNth_pos_one hp (by omega), List.filter_cons_of_pos hp,
          List.filter_nil]
      · have h' : (resp ++ [x]).length < max_hosts := by omega
        have hn1 : 1 < max_hosts - resp.length := by
          simp only [List.length_append, List.length_cons, List.length_nil] at h' ⊢
          omega
        have hidx : max_hosts - (resp ++ [x]).length
            = max_hosts - resp.length - 1 := by
          simp only [List.length_append, List.length_cons, List.length_nil]
          omega
        rw [sampleLoop, if_pos hp, if_neg h3, ih (resp ++ [x]) (probed ++ [x]) h',
          hidx, takeToNth_pos_more hp (by omega), List.filter_cons_of_pos hp]
        simp
    · rw [sampleLoop, if_neg (by simp [hp]), ih resp (probed ++ [x]) h,
        takeToNth_neg hp, List.filter_cons_of_neg (by simp [hp])]
      simp

/-- The usable-host list of any network has no duplicates. -/
theorem hostsList_nodup (net : IPv4Net) : (hostsList net).Nodup := by
  rw [hostsList]
  split
  · exact List.nodup_singleton _
  · split
    · simp
    · exact List.nodup_range' _ _

/-- The candidate list of any network has no duplicates. -/
theorem candidates_nodup (net : IPv4Net) : (candidates net).Nodup :=
  (List.drop_sublist 1 _).nodup (hostsList_nodup net)

/-- The usable-host list is strictly ascending. -/
theorem hostsList_chain (net : IPv4Net) :
    List.Chain' (· < ·) (hostsList net) := by
  rw [hostsList]
  split
  · simp
  · split
    · simp
    · exact (List.pairwise_lt_range' _ _).chain'

/-- The head of a duplicate-free list does not reappear after dropping it. -/
theorem head_not_mem_drop_one {l : List Nat} (hn : l.Nodup) {h : Nat}
    (hh : l.head? = some h) : h ∉ l.drop 1 := by
  cases l with
  | nil => simp at hh
  | cons a t =>
    simp only [List.head?_cons, Option.some.injEq] at hh
    subst hh
    simpa using (List.nodup_cons.mp hn).1

/-- C1: for every range, the candidate sequence (`hosts()` with its first
element skipped) contains neither the block's network address nor the first
usable host address, and is strictly ascending. -/
theorem c1_expander_skips_and_ascending (net : IPv4Net) :
    net.netAddr ∉ candidates net ∧
    (∀ h, (hostsList net).head? = some h → h ∉ candidates net) ∧
    List.Chain' (· < ·) (candidates net) := by
  refine ⟨?_, fun h hh => head_not_mem_drop_one (hostsList_nodup net) hh,
    (hostsList_chain net).drop 1⟩
  unfold candidates
  rw [hostsList]
  split
  · simp
  · split
    · simp
    · intro hmem
      have := List.mem_range'_1.mp (List.mem_of_mem_drop hmem)
      omega

/-- Witness for C1 at `10.0.0.0/30`: neither the network address
`10.0.0.0` nor the first usable host `10.0.0.1` is a candidate. -/
theorem c1_expander_witness :
    (167772160 : Nat) ∉ candidates ⟨167772160, 30⟩ ∧
    (167772161 : Nat) ∉ candidates ⟨167772160, 30⟩ :=
  ⟨(c1_expander_skips_and_ascending ⟨167772160, 30⟩).1,
   (c1_expander_skips_and_ascending ⟨167772160, 30⟩).2.1 167772161 (by decide)⟩

/-- C2: the responder set of a range scan holds at most 3 addresses, in
discovery order (it is the ping-positive subsequence of the probed prefix);
when the 3rd responder is appended, probing stops at once — the probed
addresses form a prefix of the candidates ending at that 3rd responder —
and when fewer than 3 respond, every candidate was probed exactly once. -/
theorem c2_responder_set (ping : Nat → Bool) (net : IPv4Net) :
    (sampleResponders ping (candidates net)).1.length ≤ max_hosts ∧
    (sampleResponders ping (candidates net)).1
      = (sampleResponders ping (candidates net)).2.filter ping ∧
    ((sampleResponders ping (candidates net)).1.length = max_hosts →
      ∃ e x rest, candidates net = (e ++ [x]) ++ rest ∧
        (sampleResponders ping (candidates net)).2 = e ++ [x] ∧
        ping x = true ∧ (e.filter ping).length = max_hosts - 1) ∧
    ((sampleResponders ping (candidates net)).1.length < max_hosts →
      (sampleResponders ping (candidates net)).2 = candidates net ∧
      ∀ ip ∈ candidates net,
        (sampleResponders ping (candidates net)).2.count ip = 1) := by
  have hsr : sampleResponders ping (candidates net)
      = ((takeToNth ping max_hosts (candidates net)).filter ping,
         takeToNth ping max_hosts (candidates net)) := by
    have h := sampleLoop_eq ping (candidates net) [] [] (by decide)
    simpa [sampleResponders] using h
  rw [hsr]
  refine ⟨takeToNth_filter_le ping max_hosts _ (by decide), rfl, ?_, ?_⟩
  · intro h3
    obtain ⟨e, x, he, hx, hlen⟩ :=
      takeToNth_last ping max_hosts _ (by decide) h3
    obtain ⟨rest, hr⟩ := takeToNth_isPre ping max_hosts (candidates net)
    exact ⟨e, x, rest, by rw [← he]; exact hr, he, hx, hlen⟩
  · intro hlt
    have hd := takeToNth_short ping max_hosts _ hlt
    refine ⟨hd, fun ip hip => ?_⟩
    rw [hd]
    exact List.count_eq_one_of_mem (candidates_nodup net) hip

/-- C3: the encrypted status probe yields `None` when any exception is
raised (connection/handshake/send failure, a `recv` failure, or an
unparsable status token), when no bytes were received, when the first line
has fewer than two whitespace tokens, or when the first token does not
start with `HTTP/`; it yields the parsed integer for a well-formed status
line; and the catch-all arm means no exception ever reaches the caller. -/
theorem c3_https_probe :
    check_https_status .failConnect = none ∧
    (∀ o, check_https_body o = none → check_https_status o = none) ∧
    (∀ chunks, accumRecv chunks [] = none →
       check_https_status (.session chunks) = none) ∧
    (∀ chunks, accumRecv chunks [] = some [] →
       check_https_status (.session chunks) = none) ∧
    (∀ chunks data, accumRecv chunks [] = some data →
       (firstLineTokens data).length < 2 →
       check_https_status (.session chunks) = none) ∧
    (∀ chunks data t0 ts, accumRecv chunks [] = some data →
       firstLineTokens data = t0 :: ts → startsWith httpSlash t0 = false →
       check_https_status (.session chunks) = none) ∧
    (∀ chunks data t0 t1 ts, accumRecv chunks [] = some data →
       firstLineTokens data = t0 :: t1 :: ts → startsWith httpSlash t0 = true →
       pyInt? t1 = none → check_https_status (.session chunks) = none) ∧
    (∀ chunks data t0 t1 ts n, accumRecv chunks [] = some data →
       firstLineTokens data = t0 :: t1 :: ts → startsWith httpSlash t0 = true →
       pyInt? t1 = some n → check_https_status (.session chunks) = some n) := by
  refine ⟨rfl, fun o h => by simp [check_https_status, h],
    fun chunks h => by simp [check_https_status, check_https_body, h],
    fun chunks h => by simp [check_https_status, check_https_body, h],
    ?_, ?_, ?_, ?_⟩
  · intro chunks data h hlen
    simp only [check_https_status, check_https_body, h]
    cases data with
    | nil => simp
    | cons b bs =>
      rcases hft : firstLineTokens (b :: bs) with _ | ⟨t0, _ | ⟨t1, ts⟩⟩
      · simp [hft]
      · simp [hft]
      · rw [hft] at hlen
        simp only [List.length_cons] at hlen
        omega
  · intro chunks data t0 ts h hft hs
    simp only [check_https_status, check_https_body, h]
    cases data with
    | nil =>
      rw [show firstLineTokens [] = [] from rfl] at hft
      cases hft
    | cons b bs =>
      cases ts with
      | nil => simp [hft]
      | cons t1 ts2 => simp [hft, hs]
  · intro chunks data t0 t1 ts h hft hs hv
    cases data with
    | nil =>
      rw [show firstLineTokens [] = [] from rfl] at hft
      cases hft
    | cons b bs =>
      simp [check_https_status, check_https_body, h, hft, hs, hv]
  · intro chunks data t0 t1 ts n h hft hs hv
    cases data with
    | nil =>
      rw [show firstLineTokens [] = [] from rfl] at hft
      cases hft
    | cons b bs =>
      simp [check_https_status, check_https_body, h, hft, hs, hv]

/-- Witness for C3: the bytes `HTTP/1.1 200 OK\r\nX` yield status 200; a
closed connection with no bytes yields `None`; a non-HTTP first line
yields `None`. -/
theorem c3_https_witness :
    check_https_status (.session
      [[72, 84, 84, 80, 47, 49, 46, 49, 32, 50, 48, 48, 32, 79, 75, 13, 10, 88]])
      = some 200 ∧
    check_https_status (.session [[]]) = none ∧
    check_https_status (.session [[88, 32, 50, 48, 48, 13, 10]]) = none := by
  refine ⟨?_, ?_, ?_⟩
  · exact c3_https_probe.2.2.2.2.2.2.2
      [[72, 84, 84, 80, 47, 49, 46, 49, 32, 50, 48, 48, 32, 79, 75, 13, 10, 88]]
      [72, 84, 84, 80, 47, 49, 46, 49, 32, 50, 48, 48, 32, 79, 75, 13, 10, 88]
      ['H', 'T', 'T', 'P', '/', '1', '.', '1'] ['2', '0', '0'] [['O', 'K']] 200
      (by decide) (by decide) (by decide) (by decide)
  · exact c3_https_probe.2.2.2.1 [[]] (by decide)
  · exact c3_https_probe.2.2.2.2.2.1 [[88, 32, 50, 48, 48, 13, 10]]
      [88, 32, 50, 48, 48, 13, 10] ['X'] [['2', '0', '0']]
      (by decide) (by decide) (by decide)

/-- Witness for C2: on `10.0.0.0/29` with every host answering, probing
stops right at the 3rd responder; on `10.0.0.0/30` with no host answering,
the whole candidate list is probed. -/
theorem c2_responder_witness :
    (∃ e x rest,
      candidates ⟨167772160, 29⟩ = (e ++ [x]) ++ rest ∧
      (sampleResponders (fun _ => true) (candidates ⟨167772160, 29⟩)).2
        = e ++ [x] ∧
      (fun _ => true) x = true ∧
      (e.filter (fun _ => true)).length = max_hosts - 1) ∧
    (sampleResponders (fun _ => false) (candidates ⟨167772160, 30⟩)).2
      = candidates ⟨167772160, 30⟩ :=
  ⟨(c2_responder_set (fun _ => true) ⟨167772160, 29⟩).2.2.1 (by decide),
   ((c2_responder_set (fun _ => false) ⟨167772160, 30⟩).2.2.2 (by decide)).1⟩

/-- C4: the bare TCP probe returns `True` exactly when the connection is
established, `False` for every failure outcome, and an established
connection is closed immediately with no data exchanged. -/
theorem c4_tcp_probe (o : TcpOutcome) :
    ((check_tcp o).1 = true ↔ o = .established) ∧
    (o ≠ .established → (check_tcp o).1 = false) ∧
    (o = .established → (check_tcp o).2 = [.connect, .close]) ∧
    (∀ e ∈ (check_tcp o).2, e ≠ .send ∧ e ≠ .recv) := by
  cases o <;> simp [check_tcp]

/-- Witness for C4: an established connection yields `True` with a
connect-then-close trace; a refused connection yields `False`. -/
theorem c4_tcp_witness :
    (check_tcp .established).2 = [.connect, .close] ∧
    (check_tcp .refused).1 = false :=
  ⟨(c4_tcp_probe .established).2.2.1 rfl,
   (c4_tcp_probe .refused).2.1 (by decide)⟩

/-- C5: the liveness prober issues exactly one probe, returns `True` only
for a zero exit code, and maps every failure (non-zero exit or a raised
error such as a missing ping tool) to `False`. -/
theorem c5_liveness_prober (r : Option Int) :
    (ping_host r).2 = 1 ∧
    ((ping_host r).1 = true ↔ r = some 0) ∧
    (r = none → (ping_host r).1 = false) ∧
    (∀ rc, r = some rc → rc ≠ 0 → (ping_host r).1 = false) := by
  cases r with
  | none => simp [ping_host]
  | some rc =>
    refine ⟨rfl, ?_, by simp, ?_⟩
    · simp [ping_host]
    · intro rc2 hr hne
      simp only [Option.some.injEq] at hr
      subst hr
      simpa [ping_host] using hne

/-- Witness for C5: exit 0 ↦ `True`; a raised error and exit 1 ↦ `False`. -/
theorem c5_liveness_witness :
    (ping_host (some 0)).1 = true ∧ (ping_host none).1 = false ∧
    (ping_host (some 1)).1 = false :=
  ⟨(c5_liveness_prober (some 0)).2.1.mpr rfl,
   (c5_liveness_prober none).2.2.1 rfl,
   (c5_liveness_prober (some 1)).2.2.2 1 rfl (by decide)⟩

/-- C6: an unparsable range specification makes `scan_subnet` report the
error and return with no liveness probe, no service probe and no report;
in `main`'s loop over several specifications the surrounding
specifications are still scanned, each on its own. -/
theorem c6_invalid_spec (env : NetworkEnv) (s : String)
    (h : ip_network? s = none) :
    scan_subnet env s = ⟨.invalid, [], []⟩ ∧
    (∀ pre post,
      scanAll env (pre ++ s :: post)
        = scanAll env pre ++ ⟨.invalid, [], []⟩ :: scanAll env post) := by
  have h1 : scan_subnet env s = ⟨.invalid, [], []⟩ := by
    simp only [scan_subnet, h]
  exact ⟨h1, fun pre post => by simp [scanAll, h1]⟩

/-- Witness for C6: `"not-a-cidr"` aborts its own scan with no probing,
and a following valid specification is still processed. -/
theorem c6_invalid_witness :
    scan_subnet envDead "not-a-cidr" = ⟨.invalid, [], []⟩ ∧
    scanAll envDead ([] ++ "not-a-cidr" :: ["10.0.0.0/30"])
      = scanAll envDead [] ++ ⟨.invalid, [], []⟩ :: scanAll envDead ["10.0.0.0/30"] :=
  ⟨(c6_invalid_spec envDead "not-a-cidr" (by decide)).1,
   (c6_invalid_spec envDead "not-a-cidr" (by decide)).2 [] ["10.0.0.0/30"]⟩

/-- C7: for a parsed range, an empty responder set yields the explicit
no-hosts outcome with no service probe, while a non-empty responder set
yields exactly one report per responder in discovery order, each report
carrying all four service outcomes computed from its own probe. -/
theorem c7_orchestrator (env : NetworkEnv) (s : String) (net : IPv4Net)
    (h : ip_network? s = some net) :
    ((sampleResponders (pingOf env) (candidates net)).1 = [] →
       scan_subnet env s =
         ⟨.noHosts, (sampleResponders (pingOf env) (candidates net)).2, []⟩) ∧
    ((sampleResponders (pingOf env) (candidates net)).1 ≠ [] →
       scan_subnet env s =
         ⟨.reports ((sampleResponders (pingOf env) (candidates net)).1.map
             (serviceReport env)),
          (sampleResponders (pingOf env) (candidates net)).2,
          (sampleResponders (pingOf env) (candidates net)).1⟩) ∧
    (∀ ip, serviceReport env ip =
      ⟨ip, check_https_status (env.conn ip), (check_tcp (env.tcp ip 3389)).1,
       (check_tcp (env.tcp ip 445)).1, (check_tcp (env.tcp ip 22)).1⟩) := by
  refine ⟨fun hr => ?_, fun hr => ?_, fun ip => rfl⟩ <;>
    simp only [scan_subnet, h] <;>
    simp [List.isEmpty_iff, hr]

/-- Witness for C7: with no responder at `10.0.0.0/30` the scan reports
no hosts and probes no service; with one responder it produces exactly its
report, with all four outcomes present despite every service being down. -/
theorem c7_orchestrator_witness :
    scan_subnet envDead "10.0.0.0/30" = ⟨.noHosts, [167772162], []⟩ ∧
    scan_subnet envAlive "10.0.0.0/30" =
      ⟨.reports [⟨167772162, none, false, false, false⟩],
       [167772162], [167772162]⟩ := by
  constructor
  · exact (c7_orchestrator envDead "10.0.0.0/30" ⟨167772160, 30⟩
      (by decide)).1 (by decide)
  · exact (c7_orchestrator envAlive "10.0.0.0/30" ⟨167772160, 30⟩
      (by decide)).2.1 (by decide)

/-- C9: `strict=False` parsing never rejects a specification for having
host bits set below the prefix: whenever the address/prefix pair parses,
the network is the containing block (prefix kept, host bits masked, the
given address inside), and `"192.168.1.5/24"` parses to `192.168.1.0/24`. -/
theorem c9_host_bits_masked :
    (∀ s ip p, parseSpec s = some (ip, p) →
       ip_network? s = some (mkNetwork ip p)) ∧
    (∀ s, ip_network? s = none ↔ parseSpec s = none) ∧
    (∀ ip p, (mkNetwork ip p).prefixlen = p ∧
       (mkNetwork ip p).netAddr % 2 ^ (32 - p) = 0 ∧
       (mkNetwork ip p).netAddr ≤ ip ∧
       ip < (mkNetwork ip p).netAddr + 2 ^ (32 - p)) ∧
    ip_network? "192.168.1.5/24" = some ⟨3232235776, 24⟩ := by
  refine ⟨fun s ip p h => by simp [ip_network?, h], fun s => ?_, fun ip p => ?_,
    by decide⟩
  · unfold ip_network?
    cases parseSpec s <;> simp
  · have hm : 0 < 2 ^ (32 - p) := Nat.pos_pow_of_pos _ (by norm_num)
    have h1 : 2 ^ (32 - p) * (ip / 2 ^ (32 - p)) + ip % 2 ^ (32 - p) = ip :=
      Nat.div_add_mod ip _
    have h1' : ip / 2 ^ (32 - p) * 2 ^ (32 - p) + ip % 2 ^ (32 - p) = ip := by
      rw [Nat.mul_comm] at h1
      exact h1
    have h2 : ip % 2 ^ (32 - p) < 2 ^ (32 - p) := Nat.mod_lt ip hm
    refine ⟨rfl, Nat.mul_mod_left _ _, ?_, ?_⟩ <;>
      simp only [mkNetwork] <;> omega

/-- Witness for C9: the general parse-success statement applied to
`"192.168.1.5/24"`, whose base address has host bits set. -/
theorem c9_host_bits_witness :
    ip_network? "192.168.1.5/24" = some (mkNetwork 3232235781 24) :=
  c9_host_bits_masked.1 "192.168.1.5/24" 3232235781 24 (by decide)

/-- C10: with a `/32` specification the single usable host is skipped and
no candidate remains; with a `/31` exactly one candidate remains, namely
the block's highest address. -/
theorem c10_edge_prefixes (net : IPv4Net) :
    (net.prefixlen = 32 → hostsList net = [net.netAddr] ∧
       candidates net = []) ∧
    (net.prefixlen = 31 → candidates net = [broadcastInt net]) := by
  constructor
  · intro h
    unfold candidates hostsList
    rw [if_pos h]
    simp
  · intro h
    unfold candidates hostsList broadcastInt
    rw [h]
    norm_num

/-- Witness for C10 at `10.0.0.0/32` and `10.0.0.0/31`. -/
theorem c10_edge_witness :
    candidates ⟨167772160, 32⟩ = [] ∧
    candidates ⟨167772160, 31⟩ = [broadcastInt ⟨167772160, 31⟩] :=
  ⟨((c10_edge_prefixes ⟨167772160, 32⟩).1 rfl).2,
   (c10_edge_prefixes ⟨167772160, 31⟩).2 rfl⟩

end Netscan
